import Mathlib

/-!
Shallow embedding of the gegl.wasm worker protocol core:
the web worker (gegl-worker.js), the main-thread dispatcher
(gegl-worker-wrapper.js, class GeglWorker), the canvas transfer helpers
(src/js/canvas-utils.js) and the progressive processor
(src/gegl/wasm-progressive.c).  Pure JS state is threaded explicitly;
the external GEGL engine is modelled at its call boundary.
-/

namespace GeglWasm

/-- Property values accepted by the operation descriptor dispatch in
handleProcess: string, number, or a color object with r,g,b,a fields. -/
inductive PropVal where
  | str (s : String)
  | num (q : Rat)
  | color (r g b a : Rat)
deriving DecidableEq, Repr

/-- Operation descriptor as consumed by handleProcess: field op.operation
holds the engine operation name, op.properties the property mapping. -/
structure Operation where
  operation : String
  properties : List (String × PropVal)
deriving DecidableEq, Repr

/-- Canvas style ImageData: width, height and the RGBA byte array
(Uint8ClampedArray contents, one Nat per byte, each below 256 in practice). -/
structure ImageDataJs where
  width : Nat
  height : Nat
  data : List Nat
deriving DecidableEq, Repr

/-- Model of the external GEGL engine at the call boundary the worker uses.
The engine is a collaborator outside this repository; its observable
behaviour for one processing request is recorded here:
knownOps is the set of operation names gegl_node_new_child accepts;
units lists the successive work calls that return true, each either
producing a progress fraction or raising an engine exception (after the
list is exhausted a further work call returns false);
resultOutcome is what getBuffer plus buffer.get deliver at the end;
initOk and initErrorMsg describe module loading inside handleInit. -/
structure Engine where
  knownOps : List String
  unknownOpError : String → String
  units : List (Except String Rat)
  resultOutcome : Except String (List Nat)
  initOk : Bool
  initErrorMsg : String

/-- Messages the worker posts to the main thread (RESPONSE_TYPES). -/
inductive WorkerOut where
  | ready
  | progress (value : Rat)
  | result (bytes : List Nat) (width height : Nat)
  | error (message : String)
  | cancelled
deriving DecidableEq, Repr

/-- Discriminator for result messages. -/
def WorkerOut.isResult : WorkerOut → Bool
  | .result _ _ _ => true
  | _ => false

/-- Discriminator for progress messages. -/
def WorkerOut.isProgress : WorkerOut → Bool
  | .progress _ => true
  | _ => false

/-- Discriminator for error messages. -/
def WorkerOut.isError : WorkerOut → Bool
  | .error _ => true
  | _ => false

/-- The progress fractions carried by the progress messages of a trace,
in emission order. -/
def progressSamples (out : List WorkerOut) : List Rat :=
  out.filterMap fun m => match m with
    | .progress q => some q
    | _ => none

/-- Worker global state (gegl-worker.js top of file): isInitialized,
isCancelled and whether currentProcessor is non null. -/
structure WorkerState where
  isInitialized : Bool
  isCancelled : Bool
  hasProcessor : Bool
deriving DecidableEq, Repr

/-- Node chain construction step of handleProcess: for each descriptor a
node is created with new Module.GeglNode(root, op.operation); the engine
raises on an unknown operation name, which the for loop propagates at the
first offending descriptor.  Properties and connections are engine calls
that do not fail at this boundary. -/
def buildNodes (e : Engine) : List Operation → Except String Unit
  | [] => .ok ()
  | op :: rest =>
      if op.operation ∈ e.knownOps then buildNodes e rest
      else .error (e.unknownOpError op.operation)

/-- Graph build phase of handleProcess: build all nodes in order, then the
check if (!currentNode) throws No operations specified, which fires exactly
when the operations list is empty. -/
def buildChain (e : Engine) (ops : List Operation) : Except String Unit :=
  match buildNodes e ops with
  | .error msg => .error msg
  | .ok () =>
      if ops.isEmpty then .error "No operations specified" else .ok ()

/-- Result of the processing while loop. -/
structure LoopOut where
  msgs : List WorkerOut
  nextRead : Nat
  sawCancel : Bool
  thrown : Option String
  calls : Nat
deriving Repr

/-- The processing loop of handleProcess:

  let progress = 0;
  while (!isCancelled && currentProcessor.work([progress])) {
    sendMessage(PROGRESS, { progress });
  }

flag gives the value of the shared isCancelled variable at its successive
reads (read r is the r-th read after the entry reset); progVar is the JS
local named progress.  Each work call receives a freshly built one element
array [progress]; the binding writes the engine fraction into that array,
which the loop then discards, so progVar is never reassigned.  The loop
exits when a read of the flag returns true or when work returns false, and
an engine exception aborts it. -/
def processLoop (flag : Nat → Bool) (progVar : Rat) :
    List (Except String Rat) → Nat → LoopOut
  | units, r =>
      if flag r then ⟨[], r + 1, true, none, 0⟩
      else
        match units with
        | [] => ⟨[], r + 1, false, none, 1⟩
        | .error msg :: _ => ⟨[], r + 1, false, some msg, 1⟩
        | .ok _ :: rest =>
            let L := processLoop flag progVar rest (r + 1)
            ⟨.progress progVar :: L.msgs, L.nextRead, L.sawCancel, L.thrown,
              L.calls + 1⟩

/-- Full outcome of one handleProcess invocation. -/
structure ProcessRun where
  post : WorkerState
  out : List WorkerOut
  workCalls : Nat
  sawCancel : Bool
deriving Repr

/-- Tail of handleProcess after a successful graph build: the processing
loop runs (the JS local progress starts at 0), an engine exception from a
work call is caught and posted as Processing failed, the post loop
isCancelled read decides between posting cancelled and extracting the
result buffer, and a result extraction failure is caught the same way. -/
def loopPhase (flag : Nat → Bool) (e : Engine) (s : WorkerState)
    (img : ImageDataJs) : ProcessRun :=
  match (processLoop flag 0 e.units 0).thrown with
  | some msg =>
      ⟨{ s with isCancelled := false, hasProcessor := true },
        (processLoop flag 0 e.units 0).msgs ++
          [.error ("Processing failed: " ++ msg)],
        (processLoop flag 0 e.units 0).calls,
        (processLoop flag 0 e.units 0).sawCancel⟩
  | none =>
      if flag (processLoop flag 0 e.units 0).nextRead then
        ⟨{ s with isCancelled := false, hasProcessor := true },
          (processLoop flag 0 e.units 0).msgs ++ [.cancelled],
          (processLoop flag 0 e.units 0).calls, true⟩
      else
        match e.resultOutcome with
        | .error msg =>
            ⟨{ s with isCancelled := false, hasProcessor := true },
              (processLoop flag 0 e.units 0).msgs ++
                [.error ("Processing failed: " ++ msg)],
              (processLoop flag 0 e.units 0).calls,
              (processLoop flag 0 e.units 0).sawCancel⟩
        | .ok bytes =>
            ⟨{ s with isCancelled := false, hasProcessor := false },
              (processLoop flag 0 e.units 0).msgs ++
                [.result bytes img.width img.height],
              (processLoop flag 0 e.units 0).calls,
              (processLoop flag 0 e.units 0).sawCancel⟩

/-- handleProcess from gegl-worker.js.  Checks isInitialized, resets
isCancelled to false, builds the buffer and the node chain, then runs the
processing loop phase; every exception along the way is caught and posted
as Processing failed.  flag abstracts the reads of the shared isCancelled
variable after the entry reset, since the only writer during a request is
the external handleCancel. -/
def handleProcess (flag : Nat → Bool) (e : Engine) (s : WorkerState)
    (img : ImageDataJs) (ops : List Operation) : ProcessRun :=
  if s.isInitialized = false then
    ⟨s, [.error "Worker not initialized"], 0, false⟩
  else
    match buildChain e ops with
    | .error msg =>
        ⟨{ s with isCancelled := false },
          [.error ("Processing failed: " ++ msg)], 0, false⟩
    | .ok () => loopPhase flag e s img

/-- Messages arriving at the worker (MESSAGE_TYPES plus the default arm). -/
inductive WorkerIn where
  | initMsg (wasmUrl : String)
  | processMsg (img : ImageDataJs) (ops : List Operation) (format : String)
  | cancelMsg
  | cleanupMsg
  | unknownMsg (t : String)
deriving DecidableEq, Repr

/-- Top level self.onmessage dispatch of gegl-worker.js.  The worker thread
is single threaded and each handler runs synchronously to completion, so no
other handler interleaves with handleProcess: after its entry reset every
read of isCancelled inside one handleProcess returns false, which is why
the flag environment passed there is the constant false function.
handleInit loads the engine module and initializes GEGL or reports
Initialization failed; handleCancel sets isCancelled; handleCleanup tears
the engine down; an unknown type is answered with an error message. -/
def workerStep (e : Engine) (s : WorkerState) (m : WorkerIn) :
    WorkerState × List WorkerOut :=
  match m with
  | .initMsg _ =>
      if s.isInitialized then (s, [.ready])
      else if e.initOk then ({ s with isInitialized := true }, [.ready])
      else (s, [.error ("Initialization failed: " ++ e.initErrorMsg)])
  | .processMsg img ops _ =>
      let r := handleProcess (fun _ => false) e s img ops
      (r.post, r.out)
  | .cancelMsg => ({ s with isCancelled := true }, [])
  | .cleanupMsg =>
      ({ isInitialized := false, isCancelled := false, hasProcessor := false },
        [])
  | .unknownMsg t => (s, [.error ("Unknown message type: " ++ t)])

/-- Error object of the main thread wrapper: message and optional code. -/
structure GeglWorkerError where
  message : String
  code : Option String
deriving DecidableEq, Repr

/-- Dispatcher side state of class GeglWorker: the two boolean flags plus
which promise callbacks are currently stored and whether a progress
callback was registered. -/
structure DispatcherState where
  isInitialized : Bool
  isProcessing : Bool
  hasInitResolver : Bool
  hasProcessResolver : Bool
  hasProcessRejecter : Bool
  onProgressSet : Bool
deriving DecidableEq, Repr

/-- Observable settlements the dispatcher performs on its stored promise
callbacks and the progress callback.  The init promise can be fulfilled
with no value (resolveInitUnit), fulfilled with an error object as its
value (resolveInitErr), or rejected by the 30 second timeout (rejectInit);
the process promise is resolved with image data or rejected with a
GeglWorkerError. -/
inductive Settlement where
  | resolveProcess (img : ImageDataJs)
  | rejectProcess (err : GeglWorkerError)
  | resolveInitUnit
  | resolveInitErr (err : GeglWorkerError)
  | rejectInit (err : GeglWorkerError)
  | progressCb (q : Rat)
deriving DecidableEq, Repr

/-- Messages the dispatcher posts to the worker. -/
inductive ToWorker where
  | initMsg (wasmUrl : String)
  | processMsg (img : ImageDataJs) (ops : List Operation) (format : String)
  | cancelMsg
  | cleanupMsg
deriving DecidableEq, Repr

/-- Discriminator for posted process messages. -/
def ToWorker.isProcessMsg : ToWorker → Bool
  | .processMsg _ _ _ => true
  | _ => false

namespace GeglWorker

/-- GeglWorker.handleMessage: reaction to each worker message type,
updating the flags and settling the stored promise callbacks exactly as
the switch statement does. -/
def handleMessage (s : DispatcherState) (m : WorkerOut) :
    DispatcherState × List Settlement :=
  match m with
  | .ready =>
      let s1 := { s with isInitialized := true }
      if s1.hasInitResolver then
        ({ s1 with hasInitResolver := false }, [.resolveInitUnit])
      else (s1, [])
  | .progress q =>
      (s, if s.onProgressSet then [.progressCb q] else [])
  | .result bytes w h =>
      let s1 := { s with isProcessing := false }
      if s1.hasProcessResolver then
        ({ s1 with hasProcessResolver := false, hasProcessRejecter := false },
          [.resolveProcess ⟨w, h, bytes⟩])
      else (s1, [])
  | .error msg =>
      let s1 := { s with isProcessing := false }
      if s1.hasProcessRejecter then
        ({ s1 with hasProcessResolver := false, hasProcessRejecter := false },
          [.rejectProcess ⟨msg, none⟩])
      else if s1.hasInitResolver then
        ({ s1 with hasInitResolver := false },
          [.resolveInitErr ⟨msg, none⟩])
      else (s1, [])
  | .cancelled =>
      let s1 := { s with isProcessing := false }
      if s1.hasProcessRejecter then
        ({ s1 with hasProcessResolver := false, hasProcessRejecter := false },
          [.rejectProcess ⟨"Processing cancelled", some "CANCELLED"⟩])
      else (s1, [])

/-- GeglWorker.handleError, the worker.onerror hook: builds a Worker error
message and either rejects the pending process promise or fulfils the
pending init promise with the error object as its value. -/
def handleError (s : DispatcherState) (msg : String) :
    DispatcherState × List Settlement :=
  let s1 := { s with isProcessing := false }
  let err : GeglWorkerError := ⟨"Worker error: " ++ msg, none⟩
  if s1.hasProcessRejecter then
    ({ s1 with hasProcessResolver := false, hasProcessRejecter := false },
      [.rejectProcess err])
  else if s1.hasInitResolver then
    ({ s1 with hasInitResolver := false }, [.resolveInitErr err])
  else (s1, [])

/-- Timeout arm of GeglWorker.init: after 30 seconds, if isInitialized is
still false the init promise is rejected with the timeout error. -/
def initTimeout (s : DispatcherState) : List Settlement :=
  if s.isInitialized then []
  else [.rejectInit ⟨"Worker initialization timeout", none⟩]

/-- GeglWorker.process.  When isInitialized is false it first awaits
init(), which posts the init message; the ready handler that resolves init
sets isInitialized and does not touch isProcessing, so the model resumes
with isInitialized true and isProcessing unchanged.  Then the guard throws
AlreadyProcessing when isProcessing is set; otherwise the flag and both
promise callbacks are stored and the process message is posted with the
buffer and the default RGBA u8 format when none is given. -/
def process (s : DispatcherState) (img : ImageDataJs) (ops : List Operation)
    (format : Option String) :
    DispatcherState × List ToWorker × Except GeglWorkerError Unit :=
  let initMsgs : List ToWorker :=
    if s.isInitialized then [] else [.initMsg "gegl.js"]
  let s1 := { s with isInitialized := true }
  if s1.isProcessing then
    (s1, initMsgs, .error ⟨"Worker is already processing", none⟩)
  else
    let s2 := { s1 with isProcessing := true, hasProcessResolver := true, hasProcessRejecter := true }
    (s2, initMsgs ++ [.processMsg img ops (format.getD "RGBA u8")], .ok ())

end GeglWorker

/-- State of the progressive processor of src/gegl/wasm-progressive.c; the
engine side GeglProcessor handle is not part of the arithmetic modelled
here. -/
structure GeglWasmProgressive where
  yield_interval : Nat
  work_count : Nat
deriving DecidableEq, Repr

/-- gegl_wasm_progressive_new: yield_interval starts at 1 (yield after
every work iteration) and work_count at 0. -/
def gegl_wasm_progressive_new : GeglWasmProgressive :=
  { yield_interval := 1, work_count := 0 }

/-- gegl_wasm_progressive_set_yield_interval: stores MAX (1, interval). -/
def gegl_wasm_progressive_set_yield_interval (p : GeglWasmProgressive)
    (interval : Nat) : GeglWasmProgressive :=
  { p with yield_interval := max 1 interval }

/-- gegl_wasm_progressive_work: increments work_count and yields to the
event loop (emscripten_sleep 0) exactly when the new count is divisible by
yield_interval; returns the updated state and whether a yield happened.
The engine call gegl_processor_work itself is outside this model. -/
def gegl_wasm_progressive_work (p : GeglWasmProgressive) :
    GeglWasmProgressive × Bool :=
  let wc := p.work_count + 1
  ({ p with work_count := wc }, wc % p.yield_interval == 0)

/-- Rectangle object as passed around by canvas-utils. -/
structure GeglRect where
  x : Nat
  y : Nat
  width : Nat
  height : Nat
deriving DecidableEq, Repr

/-- High level GeglBuffer as seen through the JS wrapper: extent, babl
format name and the stored pixel bytes of the extent.  A freshly created
buffer holds zero initialized tiles. -/
structure GeglBufferJs where
  extent : GeglRect
  format : String
  pixels : List Nat
deriving DecidableEq, Repr

/-- Engine boundary gegl_buffer_set through GeglBuffer.setPixels, for the
packed aligned case canvas-utils exercises: writing the full extent in the
native format with a matching byte count stores the bytes; the other cases
(sub rectangles, conversion, short input) are engine behaviour outside
this model and are mapped to an error value. -/
def GeglBufferJs.setPx (b : GeglBufferJs) (rect : GeglRect) (format : String)
    (data : List Nat) : Except String GeglBufferJs :=
  if rect = b.extent ∧ format = b.format ∧
      data.length = 4 * rect.width * rect.height then
    .ok { b with pixels := data }
  else .error "buffer set outside the modelled aligned case"

/-- Engine boundary gegl_buffer_get through GeglBuffer.getPixels, for the
packed aligned case: reading the full extent in the native format returns
the stored bytes. -/
def GeglBufferJs.getPx (b : GeglBufferJs) (rect : GeglRect)
    (format : String) : Except String (List Nat) :=
  if rect = b.extent ∧ format = b.format then .ok b.pixels
  else .error "buffer get outside the modelled aligned case"

/-- imageDataToGeglBuffer from src/js/canvas-utils.js, in the default path
with no buffer to reuse: a new RGBA u8 buffer over rectangle
(0, 0, width, height) is created, the Uint8ClampedArray is viewed as a
Uint8Array (a byte for byte copy) and written with setPixels over the full
rectangle. -/
def imageDataToGeglBuffer (img : ImageDataJs) : Except String GeglBufferJs :=
  let extent : GeglRect := ⟨0, 0, img.width, img.height⟩
  let buffer : GeglBufferJs :=
    ⟨extent, "RGBA u8", List.replicate (4 * img.width * img.height) 0⟩
  buffer.setPx extent "RGBA u8" img.data

/-- geglBufferToImageData from src/js/canvas-utils.js, with no rectangle
argument: the rectangle defaults to the buffer extent, the pixels are read
as RGBA u8, copied into a Uint8ClampedArray byte for byte, and the
ImageData constructor (which requires length = 4 * width * height) is
invoked with the rectangle dimensions. -/
def geglBufferToImageData (b : GeglBufferJs) : Except String ImageDataJs :=
  let rect := b.extent
  match b.getPx rect "RGBA u8" with
  | .error msg => .error msg
  | .ok px =>
      if px.length = 4 * rect.width * rect.height then
        .ok ⟨rect.width, rect.height, px⟩
      else .error "ImageData data length does not match dimensions"

/-- Round trip of the transfer codec on one image. -/
def imageDataRoundTrip (img : ImageDataJs) : Except String ImageDataJs :=
  match imageDataToGeglBuffer img with
  | .error msg => .error msg
  | .ok b => geglBufferToImageData b

/-- An engine and operation list on which handleProcess succeeds: at
least one operation, every operation name known to the engine, no work
call raising, and the result buffer extraction succeeding. -/
def GoodRun (e : Engine) (ops : List Operation) : Prop :=
  ops ≠ [] ∧ (∀ op ∈ ops, op.operation ∈ e.knownOps) ∧
    (∀ u ∈ e.units, ∃ q, u = .ok q) ∧ ∃ bs, e.resultOutcome = .ok bs

/-- Fixture: an invert operation descriptor. -/
def invertOp : Operation := ⟨"gegl:invert", []⟩

/-- Fixture: a 2 by 2 image filled with byte 7. -/
def img2x2 : ImageDataJs := ⟨2, 2, List.replicate 16 7⟩

/-- Fixture engine: knows gegl:invert, performs two work units reporting
the fractions one half and then one, and delivers a result buffer. -/
def engineTwo : Engine :=
  { knownOps := ["gegl:invert"]
    unknownOpError := fun n => "no such operation " ++ n
    units := [.ok (1/2), .ok 1]
    resultOutcome := .ok (List.replicate 16 9)
    initOk := true
    initErrorMsg := "" }

/-- Fixture engine whose result buffer extraction raises. -/
def engineFailingResult : Engine :=
  { engineTwo with resultOutcome := .error "buffer extraction failed" }

/-- Fixture worker state: initialized and idle. -/
def readyWorker : WorkerState := ⟨true, false, false⟩

/-- Fixture dispatcher state: initialized, idle, no stored callbacks. -/
def idleDispatcher : DispatcherState := ⟨true, false, false, false, false, false⟩

/-- Fixture dispatcher state: processing, with both process promise
callbacks stored. -/
def busyDispatcher : DispatcherState := ⟨true, true, false, true, true, false⟩

/-- Fixture dispatcher state: init still pending, init resolver stored,
no process callbacks. -/
def initPendingDispatcher : DispatcherState :=
  ⟨false, false, true, false, false, false⟩

/-! Helper lemmas about the processing loop and graph build. -/

theorem processLoop_flagTrue (flag : Nat → Bool) (p : Rat)
    (units : List (Except String Rat)) (r : Nat) (hf : flag r = true) :
    processLoop flag p units r = ⟨[], r + 1, true, none, 0⟩ := by
  cases units with
  | nil => simp [processLoop, hf]
  | cons u rest => cases u <;> simp [processLoop, hf]

theorem processLoop_nil_flagFalse (flag : Nat → Bool) (p : Rat) (r : Nat)
    (hf : flag r = false) :
    processLoop flag p [] r = ⟨[], r + 1, false, none, 1⟩ := by
  simp [processLoop, hf]

theorem processLoop_err_step (flag : Nat → Bool) (p : Rat) (msg : String)
    (rest : List (Except String Rat)) (r : Nat) (hf : flag r = false) :
    processLoop flag p (.error msg :: rest) r =
      ⟨[], r + 1, false, some msg, 1⟩ := by
  simp [processLoop, hf]

theorem processLoop_ok_step (flag : Nat → Bool) (p : Rat) (q : Rat)
    (rest : List (Except String Rat)) (r : Nat) (hf : flag r = false) :
    processLoop flag p (.ok q :: rest) r =
      ⟨.progress p :: (processLoop flag p rest (r + 1)).msgs,
        (processLoop flag p rest (r + 1)).nextRead,
        (processLoop flag p rest (r + 1)).sawCancel,
        (processLoop flag p rest (r + 1)).thrown,
        (processLoop flag p rest (r + 1)).calls + 1⟩ := by
  simp [processLoop, hf]

theorem processLoop_msgs_progress (flag : Nat → Bool) (p : Rat) :
    ∀ (units : List (Except String Rat)) (r : Nat),
      ((processLoop flag p units r).msgs.all WorkerOut.isProgress) = true := by
  intro units
  induction units with
  | nil =>
      intro r
      cases hf : flag r
      · rw [processLoop_nil_flagFalse flag p r hf]
        rfl
      · rw [processLoop_flagTrue flag p [] r hf]
        rfl
  | cons u rest ih =>
      intro r
      cases hf : flag r
      · cases u with
        | error msg => rw [processLoop_err_step flag p msg rest r hf]
                       rfl
        | ok q =>
            rw [processLoop_ok_step flag p q rest r hf]
            simp only [List.all_cons, WorkerOut.isProgress, Bool.true_and]
            exact ih (r + 1)
      · rw [processLoop_flagTrue flag p (u :: rest) r hf]
        rfl


theorem processLoop_sawCancel_thrown (flag : Nat → Bool) (p : Rat) :
    ∀ (units : List (Except String Rat)) (r : Nat),
      (processLoop flag p units r).sawCancel = true →
      (processLoop flag p units r).thrown = none := by
  intro units
  induction units with
  | nil =>
      intro r h
      cases hf : flag r
      · rw [processLoop_nil_flagFalse flag p r hf]
      · rw [processLoop_flagTrue flag p [] r hf]
  | cons u rest ih =>
      intro r h
      cases hf : flag r
      · cases u with
        | error msg =>
            rw [processLoop_err_step flag p msg rest r hf] at h
            cases h
        | ok q =>
            rw [processLoop_ok_step flag p q rest r hf] at h ⊢
            exact ih (r + 1) h
      · rw [processLoop_flagTrue flag p (u :: rest) r hf]

theorem processLoop_sawCancel_flag (flag : Nat → Bool) (p : Rat) :
    ∀ (units : List (Except String Rat)) (r : Nat),
      (processLoop flag p units r).sawCancel = true →
      ∃ k, k < (processLoop flag p units r).nextRead ∧ flag k = true := by
  intro units
  induction units with
  | nil =>
      intro r h
      cases hf : flag r
      · rw [processLoop_nil_flagFalse flag p r hf] at h
        cases h
      · rw [processLoop_flagTrue flag p [] r hf]
        exact ⟨r, Nat.lt_succ_self r, hf⟩
  | cons u rest ih =>
      intro r h
      cases hf : flag r
      · cases u with
        | error msg =>
            rw [processLoop_err_step flag p msg rest r hf] at h
            cases h
        | ok q =>
            rw [processLoop_ok_step flag p q rest r hf] at h ⊢
            exact ih (r + 1) h
      · rw [processLoop_flagTrue flag p (u :: rest) r hf]
        exact ⟨r, Nat.lt_succ_self r, hf⟩

theorem processLoop_thrown_of_ok_units (flag : Nat → Bool) (p : Rat) :
    ∀ (units : List (Except String Rat)) (r : Nat),
      (∀ u ∈ units, ∃ q, u = .ok q) →
      (processLoop flag p units r).thrown = none := by
  intro units
  induction units with
  | nil =>
      intro r _
      cases hf : flag r
      · rw [processLoop_nil_flagFalse flag p r hf]
      · rw [processLoop_flagTrue flag p [] r hf]
  | cons u rest ih =>
      intro r hok
      cases hf : flag r
      · obtain ⟨q, hq⟩ := hok u (List.mem_cons_self u rest)
        subst hq
        rw [processLoop_ok_step flag p q rest r hf]
        exact ih (r + 1) fun v hv => hok v (List.mem_cons_of_mem _ hv)
      · rw [processLoop_flagTrue flag p (u :: rest) r hf]

theorem buildNodes_ok_of_known (e : Engine) :
    ∀ ops : List Operation, (∀ op ∈ ops, op.operation ∈ e.knownOps) →
      buildNodes e ops = .ok () := by
  intro ops
  induction ops with
  | nil => intro _; rfl
  | cons op rest ih =>
      intro hall
      simp only [buildNodes]
      rw [if_pos (hall op (List.mem_cons_self op rest))]
      exact ih fun o ho => hall o (List.mem_cons_of_mem op ho)

theorem buildNodes_error_of_unknown (e : Engine) :
    ∀ ops : List Operation, (∃ op ∈ ops, op.operation ∉ e.knownOps) →
      ∃ m, buildNodes e ops = .error m := by
  intro ops
  induction ops with
  | nil => rintro ⟨op, hop, _⟩; cases hop
  | cons op rest ih =>
      rintro ⟨o, ho, hunk⟩
      simp only [buildNodes]
      by_cases hk : op.operation ∈ e.knownOps
      · rw [if_pos hk]
        rcases List.mem_cons.mp ho with h | h
        · exact absurd hk (h ▸ hunk)
        · exact ih ⟨o, h, hunk⟩
      · rw [if_neg hk]
        exact ⟨e.unknownOpError op.operation, rfl⟩

theorem handleProcess_post_isInitialized (flag : Nat → Bool) (e : Engine)
    (s : WorkerState) (img : ImageDataJs) (ops : List Operation) :
    (handleProcess flag e s img ops).post.isInitialized = s.isInitialized := by
  unfold handleProcess loopPhase
  repeat' split
  all_goals rfl

/-- Claim C7: gegl_wasm_progressive_set_yield_interval stores
max(1, interval), in particular interval 0 is clamped to 1; a newly
created progressive processor has yield interval 1, and with yield
interval 1 every work call yields control back to the event loop. -/
theorem yield_interval_clamped_and_default (p : GeglWasmProgressive)
    (i : Nat) (q : GeglWasmProgressive) (hq : q.yield_interval = 1) :
    (gegl_wasm_progressive_set_yield_interval p i).yield_interval = max 1 i ∧
    (gegl_wasm_progressive_set_yield_interval p 0).yield_interval = 1 ∧
    gegl_wasm_progressive_new.yield_interval = 1 ∧
    (gegl_wasm_progressive_work q).2 = true := by
  refine ⟨rfl, rfl, rfl, ?_⟩
  simp [gegl_wasm_progressive_work, hq, Nat.mod_one]

/-- Witness for yield_interval_clamped_and_default at a concrete
processor. -/
theorem yield_interval_clamped_and_default_witness :
    gegl_wasm_progressive_new.yield_interval = 1 ∧
    ((gegl_wasm_progressive_set_yield_interval gegl_wasm_progressive_new
        5).yield_interval = max 1 5 ∧
      (gegl_wasm_progressive_set_yield_interval gegl_wasm_progressive_new
        0).yield_interval = 1 ∧
      gegl_wasm_progressive_new.yield_interval = 1 ∧
      (gegl_wasm_progressive_work gegl_wasm_progressive_new).2 = true) :=
  ⟨rfl, yield_interval_clamped_and_default gegl_wasm_progressive_new 5
    gegl_wasm_progressive_new rfl⟩

/-- Claim C8: the transfer codec round trip is the identity on pixel
content: converting ImageData to a GEGL buffer and back yields the same
width, the same height and byte identical data, for every ImageData whose
data array has the canvas mandated length 4 * width * height. -/
theorem imageData_roundTrip_id (img : ImageDataJs)
    (h : img.data.length = 4 * img.width * img.height) :
    imageDataRoundTrip img = .ok img := by
  obtain ⟨w, ht, data⟩ := img
  simp only at h
  simp [imageDataRoundTrip, imageDataToGeglBuffer, GeglBufferJs.setPx,
    geglBufferToImageData, GeglBufferJs.getPx, h]

/-- Witness for imageData_roundTrip_id on a concrete 1 by 1 image. -/
theorem imageData_roundTrip_id_witness :
    (⟨1, 1, [10, 20, 30, 40]⟩ : ImageDataJs).data.length =
      4 * (1 : Nat) * 1 ∧
    imageDataRoundTrip ⟨1, 1, [10, 20, 30, 40]⟩ =
      .ok ⟨1, 1, [10, 20, 30, 40]⟩ :=
  ⟨by decide, imageData_roundTrip_id ⟨1, 1, [10, 20, 30, 40]⟩ (by decide)⟩

theorem cancelled_not_mem_of_all_progress (l : List WorkerOut)
    (h : (l.all WorkerOut.isProgress) = true) : WorkerOut.cancelled ∉ l := by
  intro hmem
  have hp := List.all_eq_true.mp h _ hmem
  simp [WorkerOut.isProgress] at hp

theorem all_progress_not_result (l : List WorkerOut)
    (h : (l.all WorkerOut.isProgress) = true) :
    (l.all fun m => !m.isResult) = true := by
  rw [List.all_eq_true] at h ⊢
  intro m hm
  have hp := h m hm
  cases m <;> simp_all [WorkerOut.isProgress, WorkerOut.isResult]

/-- Claim C5: calling process while the busy flag isProcessing is set
fails with the AlreadyProcessing error (Worker is already processing)
regardless of the request content, and no process message is posted to
the worker for that call. -/
theorem process_busy_fails (s : DispatcherState) (img : ImageDataJs)
    (ops : List Operation) (fmt : Option String)
    (hbusy : s.isProcessing = true) :
    (GeglWorker.process s img ops fmt).2.2 =
      .error ⟨"Worker is already processing", none⟩ ∧
    ((GeglWorker.process s img ops fmt).2.1.all
      fun m => !m.isProcessMsg) = true := by
  cases hi : s.isInitialized <;>
    simp [GeglWorker.process, hbusy, hi, ToWorker.isProcessMsg]

/-- Witness for process_busy_fails at a busy dispatcher. -/
theorem process_busy_fails_witness :
    busyDispatcher.isProcessing = true ∧
    ((GeglWorker.process busyDispatcher img2x2 [invertOp] none).2.2 =
        .error ⟨"Worker is already processing", none⟩ ∧
      ((GeglWorker.process busyDispatcher img2x2 [invertOp] none).2.1.all
        fun m => !m.isProcessMsg) = true) :=
  ⟨rfl, process_busy_fails busyDispatcher img2x2 [invertOp] none rfl⟩

/-- Claim C10: when an error message or a worker level error arrives
while no process rejecter is stored and the init resolver is pending, the
init promise is fulfilled, resolved with the GeglWorkerError object as
its value (the resolveInitErr settlement), rather than rejected. -/
theorem init_error_resolves_not_rejects (s : DispatcherState) (msg : String)
    (hnorej : s.hasProcessRejecter = false)
    (hres : s.hasInitResolver = true) :
    (GeglWorker.handleMessage s (WorkerOut.error msg)).2 =
      [Settlement.resolveInitErr ⟨msg, none⟩] ∧
    (GeglWorker.handleError s msg).2 =
      [Settlement.resolveInitErr ⟨"Worker error: " ++ msg, none⟩] := by
  constructor <;>
    simp [GeglWorker.handleMessage, GeglWorker.handleError, hnorej, hres]

/-- Witness for init_error_resolves_not_rejects at a dispatcher with init
pending. -/
theorem init_error_resolves_not_rejects_witness :
    (initPendingDispatcher.hasProcessRejecter = false ∧
      initPendingDispatcher.hasInitResolver = true) ∧
    ((GeglWorker.handleMessage initPendingDispatcher
        (WorkerOut.error "boom")).2 =
      [Settlement.resolveInitErr ⟨"boom", none⟩] ∧
    (GeglWorker.handleError initPendingDispatcher "boom").2 =
      [Settlement.resolveInitErr ⟨"Worker error: " ++ "boom", none⟩]) :=
  ⟨⟨rfl, rfl⟩, init_error_resolves_not_rejects initPendingDispatcher "boom"
    rfl rfl⟩

/-- Claim C3 counterexample: with an initialized idle dispatcher and an
empty operations list, process posts a process message to the worker and
does not fail synchronously, so the submission is not rejected before a
message reaches the worker and the number of exchanged messages is not
zero. -/
theorem empty_ops_message_sent :
    (GeglWorker.process idleDispatcher img2x2 [] none).2.1 =
      [ToWorker.processMsg img2x2 [] "RGBA u8"] ∧
    (GeglWorker.process idleDispatcher img2x2 [] none).2.2 = .ok () :=
  ⟨rfl, rfl⟩

/-- Claim C3 amended: an empty operations list is not rejected on the
dispatcher side; the process message is posted, the worker handleProcess
detects the empty chain and answers with exactly one error message,
Processing failed: No operations specified, after zero engine work calls
and without any progress or result message, and on receipt of that error
the dispatcher rejects the pending future with it. -/
theorem empty_ops_worker_error (s : DispatcherState) (img : ImageDataJs)
    (flag : Nat → Bool) (e : Engine) (w : WorkerState) (d : DispatcherState)
    (hinit : s.isInitialized = true) (hidle : s.isProcessing = false)
    (hw : w.isInitialized = true) (hrej : d.hasProcessRejecter = true) :
    (GeglWorker.process s img [] none).2.1 =
      [ToWorker.processMsg img [] "RGBA u8"] ∧
    (handleProcess flag e w img []).out =
      [WorkerOut.error "Processing failed: No operations specified"] ∧
    (handleProcess flag e w img []).workCalls = 0 ∧
    (GeglWorker.handleMessage d
      (WorkerOut.error "Processing failed: No operations specified")).2 =
      [Settlement.rejectProcess
        ⟨"Processing failed: No operations specified", none⟩] := by
  have hb : buildChain e [] = .error "No operations specified" := rfl
  refine ⟨?_, ?_, ?_, ?_⟩
  · simp [GeglWorker.process, hinit, hidle]
  · simp [handleProcess, hw, hb]
  · simp [handleProcess, hw, hb]
  · simp [GeglWorker.handleMessage, hrej]

/-- Witness for empty_ops_worker_error at concrete states. -/
theorem empty_ops_worker_error_witness :
    (idleDispatcher.isInitialized = true ∧
      idleDispatcher.isProcessing = false ∧
      readyWorker.isInitialized = true ∧
      busyDispatcher.hasProcessRejecter = true) ∧
    ((GeglWorker.process idleDispatcher img2x2 [] none).2.1 =
        [ToWorker.processMsg img2x2 [] "RGBA u8"] ∧
      (handleProcess (fun _ => false) engineTwo readyWorker img2x2 []).out =
        [WorkerOut.error "Processing failed: No operations specified"] ∧
      (handleProcess (fun _ => false) engineTwo readyWorker img2x2
        []).workCalls = 0 ∧
      (GeglWorker.handleMessage busyDispatcher
        (WorkerOut.error "Processing failed: No operations specified")).2 =
        [Settlement.rejectProcess
          ⟨"Processing failed: No operations specified", none⟩]) :=
  ⟨⟨rfl, rfl, rfl, rfl⟩, empty_ops_worker_error idleDispatcher img2x2
    (fun _ => false) engineTwo readyWorker busyDispatcher rfl rfl rfl rfl⟩

/-- Claim C4: when the operations list contains a name the engine does
not know, the graph build fails fast (the UnknownOperation failure of the
taxonomy): handleProcess posts exactly one error message, performs zero
engine work calls, and therefore emits no progress and no result message
and executes no part of the graph. -/
theorem unknown_op_fails_before_work (flag : Nat → Bool) (e : Engine)
    (s : WorkerState) (img : ImageDataJs) (ops : List Operation)
    (hinit : s.isInitialized = true)
    (hbad : ∃ op ∈ ops, op.operation ∉ e.knownOps) :
    (∃ msg, (handleProcess flag e s img ops).out = [WorkerOut.error msg]) ∧
    (handleProcess flag e s img ops).workCalls = 0 := by
  obtain ⟨m, hm⟩ := buildNodes_error_of_unknown e ops hbad
  have hb : buildChain e ops = .error m := by simp [buildChain, hm]
  constructor
  · exact ⟨"Processing failed: " ++ m, by simp [handleProcess, hinit, hb]⟩
  · simp [handleProcess, hinit, hb]

/-- Witness for unknown_op_fails_before_work on the operation name
bogus:op. -/
theorem unknown_op_fails_before_work_witness :
    (readyWorker.isInitialized = true ∧
      ∃ op ∈ [Operation.mk "bogus:op" []],
        op.operation ∉ engineTwo.knownOps) ∧
    ((∃ msg, (handleProcess (fun _ => false) engineTwo readyWorker img2x2
        [Operation.mk "bogus:op" []]).out = [WorkerOut.error msg]) ∧
      (handleProcess (fun _ => false) engineTwo readyWorker img2x2
        [Operation.mk "bogus:op" []]).workCalls = 0) :=
  ⟨⟨rfl, ⟨Operation.mk "bogus:op" [], by decide⟩⟩,
    unknown_op_fails_before_work (fun _ => false) engineTwo readyWorker
      img2x2 [Operation.mk "bogus:op" []] rfl
      ⟨Operation.mk "bogus:op" [], by decide⟩⟩

/-- Claim C9: the worker never posts cancelled in response to a single
process message: handleProcess resets isCancelled to false on entry and
runs synchronously to completion, no other handler interleaves in the
single threaded worker, and nothing inside the handler sets the flag, so
every read of the flag during the request returns false and the cancelled
branch is unreachable. -/
theorem process_never_cancelled (e : Engine) (s : WorkerState)
    (img : ImageDataJs) (ops : List Operation) (fmt : String) :
    WorkerOut.cancelled ∉ (workerStep e s (.processMsg img ops fmt)).2 := by
  have hnc := cancelled_not_mem_of_all_progress _
    (processLoop_msgs_progress (fun _ => false) 0 e.units 0)
  simp only [workerStep]
  by_cases hi : s.isInitialized = false
  · simp [handleProcess, hi]
  · cases hb : buildChain e ops with
    | error m => simp [handleProcess, hi, hb]
    | ok u =>
        cases u
        cases ht : (processLoop (fun _ => false) 0 e.units 0).thrown with
        | some m =>
            have hout : (handleProcess (fun _ => false) e s img ops).out =
                (processLoop (fun _ => false) 0 e.units 0).msgs ++
                  [WorkerOut.error ("Processing failed: " ++ m)] := by
              simp [handleProcess, loopPhase, hi, hb, ht]
            rw [hout]
            intro hmem
            rcases List.mem_append.mp hmem with h | h
            · exact hnc h
            · simp at h
        | none =>
            cases hr : e.resultOutcome with
            | error m =>
                have hout : (handleProcess (fun _ => false) e s img
                    ops).out =
                    (processLoop (fun _ => false) 0 e.units 0).msgs ++
                      [WorkerOut.error ("Processing failed: " ++ m)] := by
                  simp [handleProcess, loopPhase, hi, hb, ht, hr]
                rw [hout]
                intro hmem
                rcases List.mem_append.mp hmem with h | h
                · exact hnc h
                · simp at h
            | ok bytes =>
                have hout : (handleProcess (fun _ => false) e s img
                    ops).out =
                    (processLoop (fun _ => false) 0 e.units 0).msgs ++
                      [WorkerOut.result bytes img.width img.height] := by
                  simp [handleProcess, loopPhase, hi, hb, ht, hr]
                rw [hout]
                intro hmem
                rcases List.mem_append.mp hmem with h | h
                · exact hnc h
                · simp at h

/-- Claim C1: once a read of the cancellation flag during a request
returns true (the flag is monotone within one request, since its only
writer during a request, handleCancel, sets it to true), the outcome is
cancelled and never result: the worker posts cancelled as its final
message and posts no result message, and the dispatcher, holding the
pending rejecter, rejects the future with a GeglWorkerError carrying code
CANCELLED, even if the engine had already finished its work. -/
theorem cancel_observed_yields_cancelled (flag : Nat → Bool) (e : Engine)
    (s : WorkerState) (img : ImageDataJs) (ops : List Operation)
    (d : DispatcherState)
    (hmono : ∀ i j, i ≤ j → flag i = true → flag j = true)
    (hseen : (handleProcess flag e s img ops).sawCancel = true)
    (hrej : d.hasProcessRejecter = true) :
    ((handleProcess flag e s img ops).out.all fun m => !m.isResult) = true ∧
    (handleProcess flag e s img ops).out.getLast? =
      some WorkerOut.cancelled ∧
    (GeglWorker.handleMessage d WorkerOut.cancelled).2 =
      [Settlement.rejectProcess
        ⟨"Processing cancelled", some "CANCELLED"⟩] := by
  have hall := processLoop_msgs_progress flag 0 e.units 0
  by_cases hi : s.isInitialized = false
  · simp [handleProcess, hi] at hseen
  · cases hb : buildChain e ops with
    | error m => simp [handleProcess, hi, hb] at hseen
    | ok u =>
        cases u
        cases ht : (processLoop flag 0 e.units 0).thrown with
        | some m =>
            simp [handleProcess, loopPhase, hi, hb, ht] at hseen
            have h0 := processLoop_sawCancel_thrown flag 0 e.units 0 hseen
            rw [h0] at ht
            exact Option.noConfusion ht
        | none =>
            by_cases hf : flag (processLoop flag 0 e.units 0).nextRead =
                true
            · have hout : (handleProcess flag e s img ops).out =
                  (processLoop flag 0 e.units 0).msgs ++
                    [WorkerOut.cancelled] := by
                simp [handleProcess, loopPhase, hi, hb, ht, hf]
              refine ⟨?_, ?_, ?_⟩
              · rw [hout, List.all_append, all_progress_not_result _ hall]
                rfl
              · rw [hout, List.getLast?_concat]
              · simp [GeglWorker.handleMessage, hrej]
            · exfalso
              obtain ⟨k, hk, hkt⟩ : ∃ k,
                  k < (processLoop flag 0 e.units 0).nextRead ∧
                    flag k = true := by
                cases hr : e.resultOutcome with
                | error m =>
                    simp [handleProcess, loopPhase, hi, hb, ht, hf, hr]
                      at hseen
                    exact processLoop_sawCancel_flag flag 0 e.units 0 hseen
                | ok bytes =>
                    simp [handleProcess, loopPhase, hi, hb, ht, hf, hr]
                      at hseen
                    exact processLoop_sawCancel_flag flag 0 e.units 0 hseen
              exact hf (hmono k _ (Nat.le_of_lt hk) hkt)

/-- Witness for cancel_observed_yields_cancelled with a constantly set
flag. -/
theorem cancel_observed_yields_cancelled_witness :
    ((∀ i j : Nat, i ≤ j → (fun _ : Nat => true) i = true →
        (fun _ : Nat => true) j = true) ∧
      (handleProcess (fun _ => true) engineTwo readyWorker img2x2
        [invertOp]).sawCancel = true ∧
      busyDispatcher.hasProcessRejecter = true) ∧
    (((handleProcess (fun _ => true) engineTwo readyWorker img2x2
        [invertOp]).out.all fun m => !m.isResult) = true ∧
      (handleProcess (fun _ => true) engineTwo readyWorker img2x2
        [invertOp]).out.getLast? = some WorkerOut.cancelled ∧
      (GeglWorker.handleMessage busyDispatcher WorkerOut.cancelled).2 =
        [Settlement.rejectProcess
          ⟨"Processing cancelled", some "CANCELLED"⟩]) :=
  ⟨⟨fun _ _ _ h => h, by decide, rfl⟩,
    cancel_observed_yields_cancelled (fun _ => true) engineTwo readyWorker
      img2x2 [invertOp] busyDispatcher (fun _ _ _ h => h) (by decide) rfl⟩

theorem handleProcess_good_run_result (e : Engine) (w : WorkerState)
    (img : ImageDataJs) (ops : List Operation)
    (hw : w.isInitialized = true) (hgood : GoodRun e ops) :
    ∃ bs, e.resultOutcome = .ok bs ∧
      (handleProcess (fun _ => false) e w img ops).out.getLast? =
        some (WorkerOut.result bs img.width img.height) := by
  obtain ⟨hne, hknown, hunits, bs, hro⟩ := hgood
  refine ⟨bs, hro, ?_⟩
  have hb : buildChain e ops = .ok () := by
    simp [buildChain, buildNodes_ok_of_known e ops hknown,
      List.isEmpty_eq_false.mpr hne]
  have ht := processLoop_thrown_of_ok_units (fun _ => false) 0 e.units 0
    hunits
  unfold handleProcess
  rw [if_neg (by simp [hw]), hb]
  unfold loopPhase
  rw [ht, if_neg (by simp), hro]
  exact List.getLast?_concat _

/-- Claim C6: failures never make the worker terminal: any message other
than cleanup preserves isInitialized, and after a process request that
posted an error message the next process message, on an engine and
pipeline that behave, is handled normally and ends with a result message. -/
theorem worker_reusable_after_error (e : Engine) (s : WorkerState)
    (img : ImageDataJs) (ops : List Operation) (fmt : String)
    (e2 : Engine) (img2 : ImageDataJs) (ops2 : List Operation)
    (fmt2 : String) (hinit : s.isInitialized = true)
    (herr : ∃ msg, WorkerOut.error msg ∈
      (workerStep e s (.processMsg img ops fmt)).2)
    (hgood : GoodRun e2 ops2) :
    (∀ m, m ≠ WorkerIn.cleanupMsg →
      ((workerStep e s m).1).isInitialized = true) ∧
    (∃ bs, e2.resultOutcome = .ok bs ∧
      ((workerStep e2 ((workerStep e s (.processMsg img ops fmt)).1)
        (.processMsg img2 ops2 fmt2)).2).getLast? =
        some (WorkerOut.result bs img2.width img2.height)) := by
  obtain ⟨msg0, hmem0⟩ := herr
  have hstep : ∀ m, m ≠ WorkerIn.cleanupMsg →
      ((workerStep e s m).1).isInitialized = true := by
    intro m hm
    cases m with
    | initMsg url => simp [workerStep, hinit]
    | processMsg i o f =>
        simp only [workerStep]
        rw [handleProcess_post_isInitialized]
        exact hinit
    | cancelMsg => simp [workerStep, hinit]
    | cleanupMsg => exact absurd rfl hm
    | unknownMsg t => simp [workerStep, hinit]
  refine ⟨hstep, ?_⟩
  have hs1 : ((workerStep e s (.processMsg img ops fmt)).1).isInitialized =
      true := hstep _ (by simp)
  obtain ⟨bs, hro, hlast⟩ := handleProcess_good_run_result e2
    ((workerStep e s (.processMsg img ops fmt)).1) img2 ops2 hs1 hgood
  exact ⟨bs, hro, hlast⟩

/-- Witness for worker_reusable_after_error: a failing result extraction
followed by a successful request. -/
theorem worker_reusable_after_error_witness :
    (readyWorker.isInitialized = true ∧
      (∃ msg, WorkerOut.error msg ∈
        (workerStep engineFailingResult readyWorker
          (.processMsg img2x2 [invertOp] "RGBA u8")).2) ∧
      GoodRun engineTwo [invertOp]) ∧
    ((∀ m, m ≠ WorkerIn.cleanupMsg →
        ((workerStep engineFailingResult readyWorker m).1).isInitialized =
          true) ∧
      (∃ bs, engineTwo.resultOutcome = .ok bs ∧
        ((workerStep engineTwo
          ((workerStep engineFailingResult readyWorker
            (.processMsg img2x2 [invertOp] "RGBA u8")).1)
          (.processMsg img2x2 [invertOp] "RGBA u8")).2).getLast? =
          some (WorkerOut.result bs img2x2.width img2x2.height))) := by
  have hgood : GoodRun engineTwo [invertOp] := by
    refine ⟨by decide, by decide, ?_, ⟨List.replicate 16 9, rfl⟩⟩
    intro u hu
    have : u = .ok (1/2) ∨ u = .ok 1 := by
      simpa [engineTwo] using hu
    rcases this with h | h <;> exact ⟨_, h⟩
  have herr : ∃ msg, WorkerOut.error msg ∈
      (workerStep engineFailingResult readyWorker
        (.processMsg img2x2 [invertOp] "RGBA u8")).2 :=
    ⟨"Processing failed: buffer extraction failed", by decide⟩
  exact ⟨⟨rfl, herr, hgood⟩,
    worker_reusable_after_error engineFailingResult readyWorker img2x2
      [invertOp] "RGBA u8" engineTwo img2x2 [invertOp] "RGBA u8" rfl herr
      hgood⟩

/-- Claim C2 at the failing input: a request that completes successfully
(its last message is the result) on an engine whose two work calls report
the fractions one half and then one; yet both emitted progress samples
equal 0, because the loop passes a freshly built one element array to
work and discards it without reading the fraction back, so the final
emitted sample is 0 and the emitted sequence never reaches 1.0. -/
theorem progress_stuck_at_zero :
    progressSamples (handleProcess (fun _ => false) engineTwo readyWorker
      img2x2 [invertOp]).out = [0, 0] ∧
    (handleProcess (fun _ => false) engineTwo readyWorker img2x2
      [invertOp]).out.getLast? =
      some (WorkerOut.result (List.replicate 16 9) 2 2) := by
  decide

end GeglWasm
